import Mathlib

/-!
Verification development for a chess move-recommendation engine
(`app.py`): a depth-limited search with alpha-beta window bookkeeping, a
quiescence extension, a transposition table keyed by FEN strings, a static
evaluation function, and an HTTP-style endpoint acting as root driver.

The rules engine (the `python-chess` library) is an external collaborator:
positions are opaque values whose queries (occupancy, legal moves, attack
detection, terminal detection, FEN serialization) are supplied by the
provider.  We therefore embed a position as a record of provider answers
(`BoardData`) together with a transition oracle (`Board.next`) giving the
position reached by each applied move.  All arithmetic the source performs
on floats is modelled exactly over `ℚ` (every constant in play — piece
values, table entries, `0.8 *` a piece value, `15 / 2` — is exactly
representable), with `±inf` modelled by an explicit extended-score type.
The source's reliance on the interpreter recursion limit
(`sys.setrecursionlimit(2000)`) is modelled by an explicit fuel parameter:
exhausted fuel corresponds to the `RecursionError` the interpreter would
raise, surfacing as `none` / a caught exception.
-/

set_option maxRecDepth 8000

/-- Piece kinds, mirroring `chess.PAWN .. chess.KING`. -/
inductive PieceType where
  | pawn
  | knight
  | bishop
  | rook
  | queen
  | king
deriving DecidableEq

/-- Colors mirror python-chess: `chess.WHITE = True`, `chess.BLACK = False`.
We use `Bool` directly (`true` = white). -/
abbrev Color := Bool

/-- A piece: kind plus color, mirroring `chess.Piece`. -/
structure Piece where
  ptype : PieceType
  color : Color
deriving DecidableEq

/-- A move: from-square, to-square, optional promotion piece kind,
mirroring `chess.Move`.  Squares are indices `0..63` with
`square = rank * 8 + file` exactly as in python-chess. -/
structure Move where
  fromSq : Nat
  toSq : Nat
  promotion : Option PieceType
deriving DecidableEq

/-- `PIECE_VALUES` from the source. -/
def PIECE_VALUES : PieceType → ℚ
  | .pawn => 100
  | .knight => 320
  | .bishop => 330
  | .rook => 500
  | .queen => 900
  | .king => 20000

/-- `PAWN_TABLE` from the source. -/
def PAWN_TABLE : List (List ℚ) :=
  [[0, 0, 0, 0, 0, 0, 0, 0],
   [50, 50, 50, 50, 50, 50, 50, 50],
   [10, 10, 20, 30, 30, 20, 10, 10],
   [5, 5, 10, 25, 25, 10, 5, 5],
   [0, 0, 0, 0, 0, 0, 0, 0],
   [5, -5, -10, 0, 0, -10, -5, 5],
   [5, 10, 10, -20, -20, 10, 10, 5],
   [0, 0, 0, 0, 0, 0, 0, 0]]

/-- `KNIGHT_TABLE` from the source. -/
def KNIGHT_TABLE : List (List ℚ) :=
  [[-50, -40, -30, -30, -30, -30, -40, -50],
   [-40, -20, 0, 0, 0, 0, -20, -40],
   [-30, 0, 10, 15, 15, 10, 0, -30],
   [-30, 5, 15, 20, 20, 15, 5, -30],
   [-30, 0, 15, 20, 20, 15, 0, -30],
   [-30, 5, 10, 15, 15, 10, 5, -30],
   [-40, -20, 0, 5, 5, 0, -20, -40],
   [-50, -40, -30, -30, -30, -30, -30, -50]]

/-- `BISHOP_TABLE` from the source. -/
def BISHOP_TABLE : List (List ℚ) :=
  [[-20, -10, -10, -10, -10, -10, -10, -20],
   [-10, 0, 0, 0, 0, 0, 0, -10],
   [-10, 0, 5, 10, 10, 5, 0, -10],
   [-10, 5, 5, 10, 10, 5, 5, -10],
   [-10, 0, 10, 10, 10, 10, 0, -10],
   [-10, 10, 10, 10, 10, 10, 10, -10],
   [-10, 5, 0, 0, 0, 0, 5, -10],
   [-20, -10, -10, -10, -10, -10, -10, -20]]

/-- `ROOK_TABLE` from the source. -/
def ROOK_TABLE : List (List ℚ) :=
  [[0, 0, 0, 0, 0, 0, 0, 0],
   [5, 10, 10, 10, 10, 10, 10, 5],
   [-5, 0, 0, 0, 0, 0, 0, -5],
   [-5, 0, 0, 0, 0, 0, 0, -5],
   [-5, 0, 0, 0, 0, 0, 0, -5],
   [-5, 0, 0, 0, 0, 0, 0, -5],
   [-5, 0, 0, 0, 0, 0, 0, -5],
   [0, 0, 0, 5, 5, 0, 0, 0]]

/-- `QUEEN_TABLE` from the source. -/
def QUEEN_TABLE : List (List ℚ) :=
  [[-20, -10, -10, -5, -5, -10, -10, -20],
   [-10, 0, 0, 0, 0, 0, 0, -10],
   [-10, 0, 5, 5, 5, 5, 0, -10],
   [-5, 0, 5, 5, 5, 5, 0, -5],
   [0, 0, 5, 5, 5, 5, 0, -5],
   [-10, 5, 5, 5, 5, 5, 0, -10],
   [-10, 0, 5, 0, 0, 0, 0, -10],
   [-20, -10, -10, -5, -5, -10, -10, -20]]

/-- `KING_TABLE` from the source. -/
def KING_TABLE : List (List ℚ) :=
  [[-30, -40, -40, -50, -50, -40, -40, -30],
   [-30, -40, -40, -50, -50, -40, -40, -30],
   [-30, -40, -40, -50, -50, -40, -40, -30],
   [-30, -40, -40, -50, -50, -40, -40, -30],
   [-20, -30, -30, -40, -40, -30, -30, -20],
   [-10, -20, -20, -20, -20, -20, -20, -10],
   [20, 20, 0, 0, 0, 0, 20, 20],
   [20, 30, 10, 0, 0, 10, 30, 20]]

/-- `PIECE_TABLES` from the source. -/
def PIECE_TABLES : PieceType → List (List ℚ)
  | .pawn => PAWN_TABLE
  | .knight => KNIGHT_TABLE
  | .bishop => BISHOP_TABLE
  | .rook => ROOK_TABLE
  | .queen => QUEEN_TABLE
  | .king => KING_TABLE

/-- Indexing `table[row][col]` (indices are always in range in the source;
out-of-range reads default to `0`). -/
def tableAt (t : List (List ℚ)) (row col : Nat) : ℚ :=
  ((t.getD row []).getD col 0)

/-- `get_piece_table`: the table for a piece kind, flipped
(`[row[::-1] for row in reversed(table)]`) for black pieces. -/
def get_piece_table (pt : PieceType) (color : Color) : List (List ℚ) :=
  let table := PIECE_TABLES pt
  if color = false then (table.reverse).map List.reverse else table

/-- A position as seen through the Rules Provider interface: the queries
the core actually performs on a `chess.Board`.  `legalMovesOf c` is the
legal-move list obtained after setting the side to move to `c` (the
source's `board.copy(); turn = c; legal_moves` idiom); the moves of the
position itself are `legalMovesOf turn`. -/
structure BoardData where
  pieceAt : Nat → Option Piece
  turn : Color
  fullmoveNumber : Nat
  legalMovesOf : Color → List Move
  isAttackedBy : Color → Nat → Bool
  attackers : Color → Nat → List Nat
  isCheck : Bool
  kingSquare : Color → Option Nat
  isCapture : Move → Bool
  givesCheck : Move → Bool
  isCheckmate : Bool
  isStalemate : Bool
  isInsufficientMaterial : Bool
  isFivefoldRepetition : Bool
  isSeventyfiveMoves : Bool
  isGameOver : Bool
  fen : String

/-- A position together with its transition oracle: `mk d next` answers
queries by `d` and reaches `next m` when move `m` is applied.  `stub`
marks positions beyond the modelled horizon (never pushed from in the
runs we examine). -/
inductive Board where
  | stub (data : BoardData)
  | mk (data : BoardData) (next : Move → Board)

/-- The provider answers of a board. -/
def Board.data : Board → BoardData
  | .stub d => d
  | .mk d _ => d

/-- `board.push(move)`: the provider's apply-move operation. -/
def Board.push : Board → Move → Board
  | .stub d, _ => .stub d
  | .mk _ next, m => next m

/-- `chess.SQUARES`: squares `0..63`. -/
def SQUARES : List Nat := List.range 64

/-- `_is_path_clear` from the source: no pieces strictly between two
squares on a shared rank or file. -/
def is_path_clear (d : BoardData) (square1 square2 : Nat) : Bool :=
  let file1 := square1 % 8
  let rank1 := square1 / 8
  let file2 := square2 % 8
  let rank2 := square2 / 8
  if rank1 = rank2 then
    (List.range' (min file1 file2 + 1) (max file1 file2 - (min file1 file2 + 1))).all
      fun f => (d.pieceAt (rank1 * 8 + f)).isNone
  else if file1 = file2 then
    (List.range' (min rank1 rank2 + 1) (max rank1 rank2 - (min rank1 rank2 + 1))).all
      fun r => (d.pieceAt (r * 8 + file1)).isNone
  else
    true

/-- `_is_passed_pawn` from the source: no opposing pawn on the pawn's file
or an adjacent file strictly ahead of it (toward promotion). -/
def is_passed_pawn (d : BoardData) (square : Nat) (pawnColor : Color) : Bool :=
  let fileIdx := square % 8
  let rankIdx := square / 8
  let opponentColor := !pawnColor
  let files := List.range' (fileIdx - 1) (min 8 (fileIdx + 2) - (fileIdx - 1))
  let ranks := if pawnColor then List.range' (rankIdx + 1) (8 - (rankIdx + 1))
               else List.range rankIdx
  !(files.any fun f => ranks.any fun r =>
      d.pieceAt (r * 8 + f) = some ⟨.pawn, opponentColor⟩)

/-- The per-square body of the evaluator's first loop: material plus
piece-square positional value, mobility bonus (twice the legal-move count
of the piece's color), and the hanging-piece penalty.  Note the source's
hanging check asks whether the square is attacked by the *perspective's*
opponent (`opponent_color`), so for an opponent piece the condition is
`attacked by own color and not attacked by own color`, which is never
true. -/
def squareTerm (d : BoardData) (ai : Bool) (square : Nat) : ℚ :=
  match d.pieceAt square with
  | none => 0
  | some piece =>
    let aiColor : Color := ai
    let opponentColor : Color := !ai
    let value := PIECE_VALUES piece.ptype
    let row := square / 8
    let col := square % 8
    let positionalValue := tableAt (get_piece_table piece.ptype piece.color) row col
    let matPos : ℚ :=
      if piece.color = aiColor then value + positionalValue else -(value + positionalValue)
    let mobilityBonus : ℚ := ((d.legalMovesOf piece.color).length : ℚ) * 2
    let mob : ℚ := if piece.color = aiColor then mobilityBonus else -mobilityBonus
    let hang : ℚ :=
      if d.isAttackedBy opponentColor square && !(d.isAttackedBy piece.color square) then
        (if piece.color = aiColor then -(value * (4/5)) else value * (4/5))
      else 0
    matPos + mob + hang

/-- Sum of `squareTerm` over all squares (the evaluator's first loop). -/
def pieceLoopTerm (d : BoardData) (ai : Bool) : ℚ :=
  (SQUARES.map (squareTerm d ai)).sum

/-- Bishop count of one color (accumulated in the evaluator's first loop). -/
def bishopCount (d : BoardData) (c : Color) : Nat :=
  (SQUARES.filter fun sq => d.pieceAt sq = some ⟨.bishop, c⟩).length

/-- Bishop pair bonus. -/
def bishopPairTerm (d : BoardData) (ai : Bool) : ℚ :=
  (if 2 ≤ bishopCount d true then (if ai then (30 : ℚ) else -30) else 0) +
  (if 2 ≤ bishopCount d false then (if !ai then (30 : ℚ) else -30) else 0)

/-- Rook squares of one color, in square order (the source's second board
scan). -/
def rookSquares (d : BoardData) (c : Color) : List Nat :=
  SQUARES.filter fun sq => d.pieceAt sq = some ⟨.rook, c⟩

/-- All index pairs `i < j` of a list, in the source's nested-loop order. -/
def allPairs : List α → List (α × α)
  | [] => []
  | x :: xs => xs.map (fun y => (x, y)) ++ allPairs xs

/-- Contribution of one white rook pair (note the source's same-file case
awards the bonus with the *opposite* perspective sign to its same-rank
case). -/
def whiteRookPairTerm (d : BoardData) (ai : Bool) (p : Nat × Nat) : ℚ :=
  if p.1 / 8 = p.2 / 8 then
    (if is_path_clear d p.1 p.2 then (if ai then (10 : ℚ) else -10) else 0)
  else if p.1 % 8 = p.2 % 8 then
    (if is_path_clear d p.1 p.2 then (if !ai then (10 : ℚ) else -10) else 0)
  else 0

/-- Contribution of one black rook pair. -/
def blackRookPairTerm (d : BoardData) (ai : Bool) (p : Nat × Nat) : ℚ :=
  if p.1 / 8 = p.2 / 8 then
    (if is_path_clear d p.1 p.2 then (if !ai then (10 : ℚ) else -10) else 0)
  else if p.1 % 8 = p.2 % 8 then
    (if is_path_clear d p.1 p.2 then (if !ai then (10 : ℚ) else -10) else 0)
  else 0

/-- Rook connection bonus. -/
def rookConnectionTerm (d : BoardData) (ai : Bool) : ℚ :=
  ((allPairs (rookSquares d true)).map (whiteRookPairTerm d ai)).sum +
  ((allPairs (rookSquares d false)).map (blackRookPairTerm d ai)).sum

/-- Pawns of a color in a file (`sum(1 for rank in range(8) if ...)`). -/
def pawnsInFile (d : BoardData) (c : Color) (fileIndex : Nat) : Nat :=
  ((List.range 8).filter fun rank => d.pieceAt (rank * 8 + fileIndex) = some ⟨.pawn, c⟩).length

/-- The source's isolated-pawn test for a color in a file. -/
def isIsolated (d : BoardData) (c : Color) (fileIndex : Nat) : Bool :=
  0 < pawnsInFile d c fileIndex &&
  (fileIndex = 0 || pawnsInFile d c (fileIndex - 1) = 0) &&
  (fileIndex = 7 || pawnsInFile d c (fileIndex + 1) = 0)

/-- Connected-pawn contribution of one square. -/
def connectedTerm (d : BoardData) (ai : Bool) (fileIndex rankIndex : Nat) : ℚ :=
  match d.pieceAt (rankIndex * 8 + fileIndex) with
  | some pawn =>
    if pawn.ptype = .pawn then
      (if 0 < fileIndex &&
          d.pieceAt (rankIndex * 8 + (fileIndex - 1)) = some ⟨.pawn, pawn.color⟩ then
        (if pawn.color = ai then (5 : ℚ) else -5) else 0) +
      (if fileIndex < 7 &&
          d.pieceAt (rankIndex * 8 + (fileIndex + 1)) = some ⟨.pawn, pawn.color⟩ then
        (if pawn.color = ai then (5 : ℚ) else -5) else 0)
    else 0
  | none => 0

/-- Pawn structure contribution of one file: doubled, isolated, connected. -/
def pawnFileTerm (d : BoardData) (ai : Bool) (fileIndex : Nat) : ℚ :=
  (if 1 < pawnsInFile d true fileIndex then (if ai then (-20 : ℚ) else 20) else 0) +
  (if 1 < pawnsInFile d false fileIndex then (if !ai then (-20 : ℚ) else 20) else 0) +
  (if isIsolated d true fileIndex then (if ai then (-15 : ℚ) else 15) else 0) +
  (if isIsolated d false fileIndex then (if !ai then (-15 : ℚ) else 15) else 0) +
  ((List.range 8).map (connectedTerm d ai fileIndex)).sum

/-- Pawn structure over all files. -/
def pawnStructureTerm (d : BoardData) (ai : Bool) : ℚ :=
  ((List.range 8).map (pawnFileTerm d ai)).sum

/-- Pawn-shield score in front of the white king (accumulated into
`white_king_safety`; ranks `kingRank - 1` and `kingRank - 2`). -/
def whiteShield (d : BoardData) (kingSq : Nat) : ℚ :=
  let kingRank : Int := (kingSq : Int) / 8
  let kingFile := kingSq % 8
  (((List.range' (kingFile - 1) (min 8 (kingFile + 2) - (kingFile - 1))).map fun f =>
    (if 0 ≤ kingRank - 1 ∧ kingRank - 1 ≤ 7 ∧
        d.pieceAt ((kingRank - 1).toNat * 8 + f) = some ⟨.pawn, true⟩ then (10 : ℚ) else 0) +
    (if 0 ≤ kingRank - 2 ∧ kingRank - 2 ≤ 7 ∧
        d.pieceAt ((kingRank - 2).toNat * 8 + f) = some ⟨.pawn, true⟩ then (5 : ℚ) else 0)).sum)

/-- Pawn-shield score in front of the black king (ranks `kingRank + 1`
and `kingRank + 2`). -/
def blackShield (d : BoardData) (kingSq : Nat) : ℚ :=
  let kingRank := kingSq / 8
  let kingFile := kingSq % 8
  (((List.range' (kingFile - 1) (min 8 (kingFile + 2) - (kingFile - 1))).map fun f =>
    (if kingRank + 1 ≤ 7 ∧
        d.pieceAt ((kingRank + 1) * 8 + f) = some ⟨.pawn, false⟩ then (10 : ℚ) else 0) +
    (if kingRank + 2 ≤ 7 ∧
        d.pieceAt ((kingRank + 2) * 8 + f) = some ⟨.pawn, false⟩ then (5 : ℚ) else 0)).sum)

/-- Whether a color has no own pawn anywhere on a file (the source's
open-file test in front of the king). -/
def noOwnPawnOnFile (d : BoardData) (c : Color) (fileIndex : Nat) : Bool :=
  !((List.range 8).any fun r => d.pieceAt (r * 8 + fileIndex) = some ⟨.pawn, c⟩)

/-- The white-king block of the king-safety section.  Note the open-file
penalty is `score -= 10` regardless of perspective — it is *not* signed
by `ai`, unlike every other term. -/
def whiteKingBlock (d : BoardData) (ai : Bool) : ℚ :=
  match d.kingSquare true with
  | none => 0
  | some ks =>
    (if noOwnPawnOnFile d true (ks % 8) then (-10 : ℚ) else 0) +
    (if d.isCheck then (if ai then (-50 : ℚ) else 50) else 0) +
    (if ai then whiteShield d ks else -(whiteShield d ks))

/-- The black-king block of the king-safety section (same unsigned
open-file penalty). -/
def blackKingBlock (d : BoardData) (ai : Bool) : ℚ :=
  match d.kingSquare false with
  | none => 0
  | some ks =>
    (if noOwnPawnOnFile d false (ks % 8) then (-10 : ℚ) else 0) +
    (if d.isCheck then (if !ai then (-50 : ℚ) else 50) else 0) +
    (if !ai then blackShield d ks else -(blackShield d ks))

/-- King safety: both king blocks. -/
def kingSafetyTerm (d : BoardData) (ai : Bool) : ℚ :=
  whiteKingBlock d ai + blackKingBlock d ai

/-- `central_squares = [D4, E4, D5, E5]` = squares 27, 28, 35, 36. -/
def centralSquares : List Nat := [27, 28, 35, 36]

/-- Center control bonus. -/
def centerControlTerm (d : BoardData) (ai : Bool) : ℚ :=
  (centralSquares.map fun sq =>
    match d.pieceAt sq with
    | some piece => if piece.color = ai then (10 : ℚ) else -10
    | none => 0).sum

/-- The source's "developed pieces" counter over the given starting
squares: `if piece and cond: pass; elif piece is None: pass;
else: if cond: count += 1` — the inner `if` re-tests the condition the
`else` branch just refuted, so the count can never be incremented. -/
def developedCount (d : BoardData) (c : Color) (squares : List Nat) : Nat :=
  squares.foldl
    (fun acc sq =>
      match d.pieceAt sq with
      | none => acc
      | some piece =>
        if piece.color = c ∧ (piece.ptype = .knight ∨ piece.ptype = .bishop) then acc
        else
          if piece.color = c ∧ (piece.ptype = .knight ∨ piece.ptype = .bishop) then acc + 1
          else acc)
    0

/-- Early-development term: only while `fullmove_number < 6`;
`B1, C1, F1, G1` are squares 1, 2, 5, 6 and `B8, C8, F8, G8` are
57, 58, 61, 62. -/
def developmentTerm (d : BoardData) (ai : Bool) : ℚ :=
  if d.fullmoveNumber < 6 then
    let whiteDeveloped := developedCount d true [1, 2, 5, 6]
    let blackDeveloped := developedCount d false [57, 58, 61, 62]
    if ai then (whiteDeveloped : ℚ) * 10 - (blackDeveloped : ℚ) * 10
    else (blackDeveloped : ℚ) * 10 - (whiteDeveloped : ℚ) * 10
  else 0

/-- Whether a file contains no pawn of the given color (rook open/semi-open
file scan). -/
def fileOpenFor (d : BoardData) (c : Color) (fileIdx : Nat) : Bool :=
  !((List.range 8).any fun rankIdx => d.pieceAt (rankIdx * 8 + fileIdx) = some ⟨.pawn, c⟩)

/-- Whether a file contains a rook of the given color. -/
def fileHasRook (d : BoardData) (c : Color) (fileIdx : Nat) : Bool :=
  (List.range 8).any fun rankIdx => d.pieceAt (rankIdx * 8 + fileIdx) = some ⟨.rook, c⟩

/-- Rook on open/semi-open file contribution of one file. -/
def rookFileAt (d : BoardData) (ai : Bool) (fileIdx : Nat) : ℚ :=
  let fileIsOpenWhite := fileOpenFor d true fileIdx
  let fileIsOpenBlack := fileOpenFor d false fileIdx
  (if fileHasRook d true fileIdx && fileIsOpenWhite && fileIsOpenBlack then
    (if ai then (15 : ℚ) else -15)
  else if fileHasRook d true fileIdx && fileIsOpenBlack then
    (if ai then (15 / 2 : ℚ) else -(15 / 2))
  else 0) +
  (if fileHasRook d false fileIdx && fileIsOpenBlack && fileIsOpenWhite then
    (if !ai then (15 : ℚ) else -15)
  else if fileHasRook d false fileIdx && fileIsOpenWhite then
    (if !ai then (15 / 2 : ℚ) else -(15 / 2))
  else 0)

/-- Rook on open/semi-open files over all files. -/
def rookFileTerm (d : BoardData) (ai : Bool) : ℚ :=
  ((List.range 8).map (rookFileAt d ai)).sum

/-- Passed-pawn contribution of one square. -/
def passedPawnAt (d : BoardData) (ai : Bool) (sq : Nat) : ℚ :=
  match d.pieceAt sq with
  | some piece =>
    if piece.ptype = .pawn then
      if is_passed_pawn d sq piece.color then
        let rank := sq / 8
        let advancementBonus : ℚ :=
          if piece.color then ((rank : ℚ) - 1) * 10 else ((6 : ℚ) - (rank : ℚ)) * 10
        if piece.color = ai then 50 + advancementBonus else -(50 + advancementBonus)
      else 0
    else 0
  | none => 0

/-- Passed pawns over all squares. -/
def passedPawnTerm (d : BoardData) (ai : Bool) : ℚ :=
  (SQUARES.map (passedPawnAt d ai)).sum

/-- Knight-outpost contribution of one square: a knight on a central
square, defended by an own pawn and not attacked by an opposing pawn. -/
def knightOutpostAt (d : BoardData) (ai : Bool) (sq : Nat) : ℚ :=
  match d.pieceAt sq with
  | some piece =>
    if piece.ptype = .knight then
      if sq ∈ centralSquares then
        let defendedByPawn := (d.attackers piece.color sq).any fun pawnSq =>
          d.pieceAt pawnSq = some ⟨.pawn, piece.color⟩
        let attackedByOppPawn := (d.attackers (!piece.color) sq).any fun pawnSq =>
          d.pieceAt pawnSq = some ⟨.pawn, !piece.color⟩
        if defendedByPawn && !attackedByOppPawn then
          (if piece.color = ai then (25 : ℚ) else -25)
        else 0
      else 0
    else 0
  | none => 0

/-- Knight outposts over all squares. -/
def knightOutpostTerm (d : BoardData) (ai : Bool) : ℚ :=
  (SQUARES.map (knightOutpostAt d ai)).sum

/-- `evaluate_board(board, ai_color_is_white)`: the sum of all the
evaluator's terms, in source order. -/
def evaluate_board (d : BoardData) (ai : Bool) : ℚ :=
  pieceLoopTerm d ai + bishopPairTerm d ai + rookConnectionTerm d ai +
  pawnStructureTerm d ai + kingSafetyTerm d ai + centerControlTerm d ai +
  developmentTerm d ai + rookFileTerm d ai + passedPawnTerm d ai +
  knightOutpostTerm d ai

/-- Python float scores with `math.inf` sentinels: an exactly-represented
rational, or `±inf`.  (No NaN ever arises in the source's score flow.) -/
inductive XScore where
  | negInf
  | fin (q : ℚ)
  | posInf
deriving DecidableEq

/-- `a <= b` on scores (floats with infinities are a total order here). -/
def XScore.ble : XScore → XScore → Bool
  | .negInf, _ => true
  | _, .posInf => true
  | .posInf, _ => false
  | .fin _, .negInf => false
  | .fin a, .fin b => a ≤ b

/-- `a < b` on scores. -/
def XScore.blt (a b : XScore) : Bool := !(XScore.ble b a)

/-- Negation of a score (`-score`). -/
def XScore.neg : XScore → XScore
  | .negInf => .posInf
  | .fin q => .fin (-q)
  | .posInf => .negInf

/-- `max(a, b)` as Python computes it (value-equal to either argument on
ties). -/
def XScore.max (a b : XScore) : XScore := if XScore.ble a b then b else a

/-- `min(a, b)` as Python computes it. -/
def XScore.min (a b : XScore) : XScore := if XScore.ble a b then a else b

/-- `TT_EXACT / TT_LOWERBOUND / TT_UPPERBOUND`. -/
inductive TTFlag where
  | EXACT
  | LOWERBOUND
  | UPPERBOUND
deriving DecidableEq

/-- A transposition-table value: `(stored_depth, stored_score, flag)`. -/
structure TTEntry where
  depth : Nat
  score : XScore
  flag : TTFlag
deriving DecidableEq

/-- The transposition table: a map from FEN strings to entries
(`transposition_table` in the source). -/
def TT : Type := String → Option TTEntry

/-- The empty transposition table (`transposition_table.clear()`). -/
def emptyTT : TT := fun _ => none

/-- `transposition_table[fen] = entry`. -/
def ttStore (tt : TT) (fen : String) (entry : TTEntry) : TT :=
  fun k => if k = fen then some entry else tt k

/-- The transposition-table consultation at the top of `minimax`: returns
the stored score when the entry is deep enough and its bound kind allows
an early return at the current window, else `none` (fall through). -/
def ttProbe (tt : TT) (fen : String) (depth : Nat) (alpha beta : XScore) : Option XScore :=
  match tt fen with
  | none => none
  | some e =>
    if e.depth < depth then none
    else if e.flag = TTFlag.EXACT then some e.score
    else if e.flag = TTFlag.LOWERBOUND ∧ XScore.ble beta e.score then some e.score
    else if e.flag = TTFlag.UPPERBOUND ∧ XScore.ble e.score alpha then some e.score
    else none

/-- `calculate_mvl_lva`: victim value minus attacker value for captures,
`0` otherwise. -/
def calculate_mvl_lva (d : BoardData) (move : Move) : ℚ :=
  if d.isCapture move then
    match d.pieceAt move.toSq, d.pieceAt move.fromSq with
    | some victim, some attacker =>
      PIECE_VALUES victim.ptype - PIECE_VALUES attacker.ptype
    | _, _ => 0
  else 0

/-- Stable insertion of an element into a key-descending sorted list: the
element (originally earlier) goes before the first later element whose
key is not larger.  Together with `sortByKeyDesc` this models Python's
stable `list.sort(key=..., reverse=True)`. -/
def insertByKeyDesc (key : α → ℚ) (x : α) : List α → List α
  | [] => [x]
  | y :: ys => if key y ≤ key x then x :: y :: ys else y :: insertByKeyDesc key x ys

/-- Stable descending sort by key. -/
def sortByKeyDesc (key : α → ℚ) : List α → List α
  | [] => []
  | x :: xs => insertByKeyDesc key x (sortByKeyDesc key xs)

/-- The mutable board threaded through the search: the current position
plus the undo stack the provider's `push` / `pop` maintain. -/
def SState : Type := Board × List Board

/-- `board.push(move)`: advance to the successor position, recording the
current one on the undo stack. -/
def pushS (st : SState) (m : Move) : SState := (st.1.push m, st.1 :: st.2)

/-- `board.pop()`: restore the most recently pushed position.  (The
provider guarantees undo exactly reverses apply; popping an empty stack
cannot occur on the source's balanced paths and is modelled as a no-op.) -/
def popS (st : SState) : SState :=
  match st.2 with
  | h :: t => (h, t)
  | [] => st

/-- The noisy-move loop of `quiescence_search`, parametrized by the
recursive call on the pushed board (push, recurse negated, pop; return
`beta` on a fail-high, else raise `alpha`). -/
def qLoop (recur : SState → Bool → XScore → XScore → Option (XScore × SState)) :
    SState → Bool → XScore → XScore → List Move → Option (XScore × SState)
  | st, _, alpha, _, [] => some (alpha, st)
  | st, ai, alpha, beta, m :: ms =>
    let st1 := pushS st m
    match recur st1 (!ai) (XScore.neg beta) (XScore.neg alpha) with
    | none => none
    | some (s0, st2) =>
      let score := XScore.neg s0
      let st3 := popS st2
      if XScore.ble beta score then some (beta, st3)
      else qLoop recur st3 ai (if XScore.blt alpha score then score else alpha) beta ms

/-- `quiescence_search(board, ai_color_is_white, alpha, beta)`: stand-pat
cutoff, then the noisy-move loop.  The fuel parameter models the
interpreter recursion limit: `none` is the `RecursionError` the Python
would raise. -/
def quiescence_search : Nat → SState → Bool → XScore → XScore → Option (XScore × SState)
  | 0, _, _, _, _ => none
  | fuel + 1, st, ai, alpha, beta =>
    let d := st.1.data
    let stand_pat := XScore.fin (evaluate_board d ai)
    if XScore.ble beta stand_pat then some (beta, st)
    else
      let alpha1 := if XScore.blt alpha stand_pat then stand_pat else alpha
      let noisyMoves := (d.legalMovesOf d.turn).filter fun m =>
        d.isCapture m || d.givesCheck m || m.promotion.isSome
      let sorted := sortByKeyDesc (fun m => calculate_mvl_lva d m) noisyMoves
      qLoop (quiescence_search fuel) st ai alpha1 beta sorted

/-- The move loop of `minimax`, parametrized by the recursive call on the
pushed board: push, recurse at `depth - 1` with the negated window and
flipped perspective (without negating the returned score), pop, then
maximize or minimize by the absolute color and break on `beta <= alpha`. -/
def mmLoop
    (recur : TT → SState → Nat → Bool → XScore → XScore → Option (XScore × SState × TT)) :
    TT → SState → Nat → Bool → XScore → XScore → XScore → TTFlag →
    List Move → Option (XScore × TTFlag × SState × TT)
  | tt, st, _, _, _, _, best, flag, [] => some (best, flag, st, tt)
  | tt, st, depth, ai, alpha, beta, best, flag, m :: ms =>
    let st1 := pushS st m
    match recur tt st1 (depth - 1) (!ai) (XScore.neg beta) (XScore.neg alpha) with
    | none => none
    | some (score, st2, tt2) =>
      let st3 := popS st2
      if ai then
        let best1 := if XScore.blt best score then score else best
        let alpha1 := XScore.max alpha score
        if XScore.ble beta alpha1 then
          some (best1, (if ai then TTFlag.LOWERBOUND else TTFlag.UPPERBOUND), st3, tt2)
        else mmLoop recur tt2 st3 depth ai alpha1 beta best1 flag ms
      else
        let best1 := if XScore.blt score best then score else best
        let beta1 := XScore.min beta score
        if XScore.ble beta1 alpha then
          some (best1, (if ai then TTFlag.LOWERBOUND else TTFlag.UPPERBOUND), st3, tt2)
        else mmLoop recur tt2 st3 depth ai alpha beta1 best1 flag ms

/-- `minimax(board, depth, ai_color_is_white, alpha, beta)`: transposition
probe, quiescence delegation at depth 0, terminal scoring, then the
ordered move loop.  Threads the transposition table and the mutable
board; `none` models a `RecursionError`.  Note the checkmate branch
scores `+1000000` when `board.turn` equals the perspective color
(`chess.WHITE if ai_color_is_white else chess.BLACK`), and the stored
flag after the move loop is the initialization
(`TT_LOWERBOUND if ai_color_is_white else TT_UPPERBOUND`) whether or not
a cutoff occurred — the cutoff branch re-assigns the same value. -/
def minimax : Nat → TT → SState → Nat → Bool → XScore → XScore →
    Option (XScore × SState × TT)
  | 0, _, _, _, _, _, _ => none
  | fuel + 1, tt, st, depth, ai, alpha, beta =>
    let d := st.1.data
    let fen := d.fen
    match ttProbe tt fen depth alpha beta with
    | some storedScore => some (storedScore, st, tt)
    | none =>
      if depth = 0 then
        match quiescence_search fuel st ai alpha beta with
        | none => none
        | some (score, st1) =>
          some (score, st1, ttStore tt fen ⟨depth, score, TTFlag.EXACT⟩)
      else if d.isCheckmate then
        let score : XScore :=
          if d.turn = ai then XScore.fin 1000000 else XScore.fin (-1000000)
        some (score, st, ttStore tt fen ⟨depth, score, TTFlag.EXACT⟩)
      else if d.isStalemate || d.isInsufficientMaterial ||
              d.isFivefoldRepetition || d.isSeventyfiveMoves then
        some (XScore.fin 0, st, ttStore tt fen ⟨depth, XScore.fin 0, TTFlag.EXACT⟩)
      else
        let best0 := if ai then XScore.negInf else XScore.posInf
        let flag0 := if ai then TTFlag.LOWERBOUND else TTFlag.UPPERBOUND
        let legalMoves := sortByKeyDesc
          (fun m => calculate_mvl_lva d m + (if d.givesCheck m then 100 else 0))
          (d.legalMovesOf d.turn)
        match mmLoop (minimax fuel) tt st depth ai alpha beta best0 flag0 legalMoves with
        | none => none
        | some (best, flag, st1, tt1) =>
          some (best, st1, ttStore tt1 fen ⟨depth, best, flag⟩)

/-- The unpruned move fold of `negamaxFull`, parametrized by the
recursive call. -/
def nmLoop (recur : Board → Nat → Bool → Option XScore) :
    Board → Nat → Bool → List Move → XScore → Option XScore
  | _, _, _, [], best => some best
  | b, depth, persp, m :: ms, best =>
    match recur (b.push m) (depth - 1) (!persp) with
    | none => none
    | some s => nmLoop recur b depth persp ms (XScore.max best (XScore.neg s))

/-- Modelled from the spec: the "unpruned full-width negamax" of §8's
alpha-beta-equivalence property and §4.4's state machine, with the
transposition table and alpha-beta maintenance removed (no pruning, no
cache): at depth 0 it delegates to the same quiescence policy (full
window); a checkmated side to move scores `-1000000` when it equals the
perspective, else `+1000000`; draw conditions score `0`; otherwise the
value is the maximum over all legal moves of the negated recursive score
(recurse with flipped perspective, negate the returned score, maximize
always).  Fueled like the search it is compared against. -/
def negamaxFull : Nat → Board → Nat → Bool → Option XScore
  | 0, _, _, _ => none
  | fuel + 1, b, depth, persp =>
    let d := b.data
    if depth = 0 then
      (quiescence_search fuel (b, []) persp XScore.negInf XScore.posInf).map (fun r => r.1)
    else if d.isCheckmate then
      some (if d.turn = persp then XScore.fin (-1000000) else XScore.fin 1000000)
    else if d.isStalemate || d.isInsufficientMaterial ||
            d.isFivefoldRepetition || d.isSeventyfiveMoves then
      some (XScore.fin 0)
    else
      nmLoop (negamaxFull fuel) b depth persp (d.legalMovesOf d.turn) XScore.negInf

/-- The score component of a `minimax` result. -/
def resultScore (r : Option (XScore × SState × TT)) : Option XScore :=
  r.map (·.1)

/-- The state component of a `minimax` result. -/
def resultState (r : Option (XScore × SState × TT)) : Option SState :=
  r.map (·.2.1)

/-- The transposition entry a `minimax` result holds for a key. -/
def resultTTAt (r : Option (XScore × SState × TT)) (fen : String) : Option TTEntry :=
  match r with
  | some (_, _, tt) => tt fen
  | none => none

/-- The JSON request body of `/api/get_ai_move`. -/
structure AIRequest where
  board_fen : Option String
  ai_color : Option String
  difficulty : Option String

/-- The JSON `move` object of a successful response. -/
structure MoveJson where
  from_square : String
  to_square : String
  promotion : Option String
deriving DecidableEq

/-- A response of the endpoint: the JSON payload plus HTTP status. -/
structure AIResponse where
  success : Bool
  move : Option MoveJson
  message : String
  status : Nat
deriving DecidableEq

/-- The difficulty → search-depth mapping of the endpoint. -/
def difficultyDepth (difficulty : String) : Nat :=
  if difficulty = "easy" then 1
  else if difficulty = "intermediate" then 2
  else if difficulty = "hard" then 3
  else 2

/-- The file letter of a square, as in a UCI move string. -/
def fileLetter (f : Nat) : String :=
  if f = 0 then "a" else if f = 1 then "b" else if f = 2 then "c"
  else if f = 3 then "d" else if f = 4 then "e" else if f = 5 then "f"
  else if f = 6 then "g" else "h"

/-- The name of a square (`move.uci()[0:2]` / `[2:4]`). -/
def squareName (sq : Nat) : String :=
  fileLetter (sq % 8) ++ Nat.repr (sq / 8 + 1)

/-- The root move loop of the endpoint: push each ordered root move, call
`minimax(board, depth - 1, not ai_is_white, -inf, inf)`, pop, and keep
the move with the extremal score for the engine color (strict
improvement, so ties keep the earliest move in ordering order). -/
def rootLoop : Nat → TT → SState → Nat → Bool → XScore → Option Move → List Move →
    Except String (XScore × Option Move × SState × TT)
  | _, tt, st, _, _, best, bestMove, [] => .ok (best, bestMove, st, tt)
  | fuel, tt, st, depth, aiIsWhite, best, bestMove, m :: ms =>
    let st1 := pushS st m
    match minimax fuel tt st1 (depth - 1) (!aiIsWhite) XScore.negInf XScore.posInf with
    | none => .error "maximum recursion depth exceeded"
    | some (score, st2, tt2) =>
      let st3 := popS st2
      if aiIsWhite then
        if XScore.blt best score then rootLoop fuel tt2 st3 depth aiIsWhite score (some m) ms
        else rootLoop fuel tt2 st3 depth aiIsWhite best bestMove ms
      else
        if XScore.blt score best then rootLoop fuel tt2 st3 depth aiIsWhite score (some m) ms
        else rootLoop fuel tt2 st3 depth aiIsWhite best bestMove ms

/-- The body of the endpoint's `try:` block, given the provider's
FEN-to-board construction as an oracle (`chess.Board(board_fen)` raising
is an `.error`).  `tt0` is the inherited global table; the body clears it
(`transposition_table.clear()`) before searching.  An `.error` result is
an exception the handler's `except:` clause will catch.  (Serializing a
best move that carries a promotion raises in the source —
`best_move.promotion.name` on an `int` — which the model reports as the
corresponding `.error`.) -/
def tryBody (parse : String → Except String Board) (fuel : Nat) (tt0 : TT)
    (board_fen ai_color_str difficulty : String) : Except String AIResponse :=
  match parse board_fen with
  | .error e => .error e
  | .ok board =>
    let d := board.data
    if d.isGameOver then
      .ok ⟨false, none, "Game is already over (checkmate, stalemate, or draw)", 200⟩
    else
      let expectedTurn : Color := ai_color_str.toLower == "white"
      if d.turn ≠ expectedTurn then
        .ok ⟨false, none, "Not AI's turn to move.", 200⟩
      else
        let depth := difficultyDepth difficulty
        let _cleared := tt0
        let tt : TT := emptyTT
        let aiIsWhite : Bool := ai_color_str.toLower == "white"
        let legalMovesForAi := d.legalMovesOf d.turn
        if legalMovesForAi.isEmpty then
          .ok ⟨false, none, "No legal moves for AI (checkmate/stalemate)", 200⟩
        else
          let sorted := sortByKeyDesc
            (fun m => calculate_mvl_lva d m + (if d.givesCheck m then 100 else 0))
            legalMovesForAi
          let best0 := if aiIsWhite then XScore.negInf else XScore.posInf
          match rootLoop fuel tt (board, []) depth aiIsWhite best0 none sorted with
          | .error e => .error e
          | .ok (_, some bestMove, _, _) =>
            match bestMove.promotion with
            | some _ => .error "'int' object has no attribute 'name'"
            | none =>
              .ok ⟨true,
                   some ⟨squareName bestMove.fromSq, squareName bestMove.toSq, none⟩,
                   "AI found a move.", 200⟩
          | .ok (_, none, _, _) =>
            .ok ⟨false, none, "AI could not find a move.", 200⟩

/-- The endpoint `get_ai_move`: missing-field check (Python falsiness:
an absent or empty field), then the `try:` body with its `except:`
clause reporting any raised error as a `success=false` 500 response. -/
def get_ai_move (parse : String → Except String Board) (fuel : Nat) (tt0 : TT)
    (req : AIRequest) : AIResponse :=
  let board_fen := req.board_fen.getD ""
  let ai_color_str := req.ai_color.getD ""
  let difficulty := req.difficulty.getD ""
  if board_fen = "" ∨ ai_color_str = "" ∨ difficulty = "" then
    ⟨false, none, "Missing board_fen, ai_color, or difficulty", 400⟩
  else
    match tryBody parse fuel tt0 board_fen ai_color_str difficulty with
    | .ok r => r
    | .error e => ⟨false, none, e, 500⟩

/-- Provider answers for the position `k7/8/8/8/8/8/8/K7 w - - 0 30`
(white king a1 = square 0, black king a8 = square 56, white to move).
Each king has the three legal moves onto its adjacent squares; the only
attacked squares are those adjacent to a king.  `attackers` lists are
consulted only at knight squares (there are none). -/
def kingsOnlyData : BoardData where
  pieceAt := fun sq =>
    if sq = 0 then some ⟨.king, true⟩
    else if sq = 56 then some ⟨.king, false⟩
    else none
  turn := true
  fullmoveNumber := 30
  legalMovesOf := fun c =>
    if c then [⟨0, 1, none⟩, ⟨0, 8, none⟩, ⟨0, 9, none⟩]
    else [⟨56, 48, none⟩, ⟨56, 49, none⟩, ⟨56, 57, none⟩]
  isAttackedBy := fun c sq =>
    if c then sq ∈ ([1, 8, 9] : List Nat) else sq ∈ ([48, 49, 57] : List Nat)
  attackers := fun c sq =>
    if c then (if sq ∈ ([1, 8, 9] : List Nat) then [0] else [])
    else (if sq ∈ ([48, 49, 57] : List Nat) then [56] else [])
  isCheck := false
  kingSquare := fun c => if c then some 0 else some 56
  isCapture := fun _ => false
  givesCheck := fun _ => false
  isCheckmate := false
  isStalemate := false
  isInsufficientMaterial := true
  isFivefoldRepetition := false
  isSeventyfiveMoves := false
  isGameOver := true
  fen := "k7/8/8/8/8/8/8/K7 w - - 0 30"

/-- Provider answers for `8/8/8/8/7P/8/5k1P/7K b - - 0 40`, the position
reached from `pawnBoxData` by the single legal move h3-h4: white king h1
(7), white pawns h2 (15) and h4 (31), black king f2 (13), black to move.
White's legal moves with the turn flipped are h2-h3 and h4-h5 (the king
is boxed in: g1 and g2 are adjacent to the black king, h2 is occupied);
black's are the king moves e1, f1, e2, e3, f3 (g1, g2 are adjacent to
the white king and g3 is attacked by the h2 pawn).  White attacks
g1, g2, h2 (king), g3 (h2 pawn), g5 (h4 pawn); black attacks the squares
adjacent to f2.  No captures, checks or promotions are available to
either side. -/
def pawnBoxAfterData : BoardData where
  pieceAt := fun sq =>
    if sq = 7 then some ⟨.king, true⟩
    else if sq = 15 then some ⟨.pawn, true⟩
    else if sq = 31 then some ⟨.pawn, true⟩
    else if sq = 13 then some ⟨.king, false⟩
    else none
  turn := false
  fullmoveNumber := 40
  legalMovesOf := fun c =>
    if c then [⟨15, 23, none⟩, ⟨31, 39, none⟩]
    else [⟨13, 4, none⟩, ⟨13, 5, none⟩, ⟨13, 12, none⟩, ⟨13, 20, none⟩, ⟨13, 21, none⟩]
  isAttackedBy := fun c sq =>
    if c then sq ∈ ([6, 14, 15, 22, 38] : List Nat)
    else sq ∈ ([4, 5, 6, 12, 14, 20, 21, 22] : List Nat)
  attackers := fun _ _ => []
  isCheck := false
  kingSquare := fun c => if c then some 7 else some 13
  isCapture := fun _ => false
  givesCheck := fun _ => false
  isCheckmate := false
  isStalemate := false
  isInsufficientMaterial := false
  isFivefoldRepetition := false
  isSeventyfiveMoves := false
  isGameOver := false
  fen := "8/8/8/8/7P/8/5k1P/7K b - - 0 40"

/-- The position `8/8/8/8/7P/8/5k1P/7K b - - 0 40` (no noisy moves are
ever pushed from it). -/
def pawnBoxAfterBoard : Board := .stub pawnBoxAfterData

/-- Provider answers for `8/8/8/8/8/7P/5k1P/7K w - - 0 40`: white king
h1 (7), white pawns h2 (15) and h3 (23), black king f2 (13), white to
move.  White's single legal move is h3-h4 (the king is boxed in and h2
is blocked); black's turn-flipped moves are the five king moves as
above.  White attacks g1, g2, h2 (king), g3 (h2 pawn), g4 (h3 pawn). -/
def pawnBoxData : BoardData where
  pieceAt := fun sq =>
    if sq = 7 then some ⟨.king, true⟩
    else if sq = 15 then some ⟨.pawn, true⟩
    else if sq = 23 then some ⟨.pawn, true⟩
    else if sq = 13 then some ⟨.king, false⟩
    else none
  turn := true
  fullmoveNumber := 40
  legalMovesOf := fun c =>
    if c then [⟨23, 31, none⟩]
    else [⟨13, 4, none⟩, ⟨13, 5, none⟩, ⟨13, 12, none⟩, ⟨13, 20, none⟩, ⟨13, 21, none⟩]
  isAttackedBy := fun c sq =>
    if c then sq ∈ ([6, 14, 15, 22, 30] : List Nat)
    else sq ∈ ([4, 5, 6, 12, 14, 20, 21, 22] : List Nat)
  attackers := fun _ _ => []
  isCheck := false
  kingSquare := fun c => if c then some 7 else some 13
  isCapture := fun _ => false
  givesCheck := fun _ => false
  isCheckmate := false
  isStalemate := false
  isInsufficientMaterial := false
  isFivefoldRepetition := false
  isSeventyfiveMoves := false
  isGameOver := false
  fen := "8/8/8/8/8/7P/5k1P/7K w - - 0 40"

/-- The position `8/8/8/8/8/7P/5k1P/7K w - - 0 40`; its only legal move
h3-h4 reaches `pawnBoxAfterBoard`. -/
def pawnBoxBoard : Board := .mk pawnBoxData (fun _ => pawnBoxAfterBoard)

/-- Provider answers for `8/8/8/8/8/1k6/1q6/K7 w - - 0 50`: white king
a1 (0), black queen b2 (9), black king b3 (17); white to move and
checkmated (a1 is attacked, every flight square is covered, and the
queen is defended).  The search's checkmate branch consults only the
side to move, the checkmate flag and the FEN key, so the move lists
(empty: white has no legal move) and attack sets are the provider
answers it reads. -/
def matedData : BoardData where
  pieceAt := fun sq =>
    if sq = 0 then some ⟨.king, true⟩
    else if sq = 9 then some ⟨.queen, false⟩
    else if sq = 17 then some ⟨.king, false⟩
    else none
  turn := true
  fullmoveNumber := 50
  legalMovesOf := fun _ => []
  isAttackedBy := fun c sq =>
    if c then sq ∈ ([1, 8, 9] : List Nat)
    else sq ∈ ([0, 1, 2, 8, 9, 10, 11, 12, 13, 14, 15, 16, 17, 18,
                24, 25, 26, 27, 36, 45, 54, 63] : List Nat)
  attackers := fun _ _ => []
  isCheck := true
  kingSquare := fun c => if c then some 0 else some 17
  isCapture := fun _ => false
  givesCheck := fun _ => false
  isCheckmate := true
  isStalemate := false
  isInsufficientMaterial := false
  isFivefoldRepetition := false
  isSeventyfiveMoves := false
  isGameOver := true
  fen := "8/8/8/8/8/1k6/1q6/K7 w - - 0 50"

/-- The checkmate position as a board (terminal: no move is ever pushed). -/
def matedBoard : Board := .stub matedData

/-- Provider answers for `8/8/8/8/8/1K6/2Q5/k7 b - - 0 60`: black king
a1 (0), white queen c2 (10), white king b3 (17); black to move and
stalemated (a1 is not attacked, but a2, b1 and b2 all are). -/
def stalemateData : BoardData where
  pieceAt := fun sq =>
    if sq = 0 then some ⟨.king, false⟩
    else if sq = 10 then some ⟨.queen, true⟩
    else if sq = 17 then some ⟨.king, true⟩
    else none
  turn := false
  fullmoveNumber := 60
  legalMovesOf := fun _ => []
  isAttackedBy := fun c sq =>
    if c then sq ∈ ([1, 2, 3, 8, 9, 10, 11, 12, 13, 14, 15, 16, 17, 18, 19,
                     24, 25, 26, 28, 34, 37, 42, 46, 50, 55, 58] : List Nat)
    else sq ∈ ([1, 8, 9] : List Nat)
  attackers := fun _ _ => []
  isCheck := false
  kingSquare := fun c => if c then some 17 else some 0
  isCapture := fun _ => false
  givesCheck := fun _ => false
  isCheckmate := false
  isStalemate := true
  isInsufficientMaterial := false
  isFivefoldRepetition := false
  isSeventyfiveMoves := false
  isGameOver := true
  fen := "8/8/8/8/8/1K6/2Q5/k7 b - - 0 60"

/-- The stalemate position as a board. -/
def stalemateBoard : Board := .stub stalemateData

attribute [local semireducible] Rat.add Rat.mul Rat.inv Rat.sub Rat.ofScientific

/-- The hanging-piece penalty magnitude actually charged at a square: the
source's condition instantiated at the only perspective for which it can
fire (the piece's own side). -/
def hangAt (d : BoardData) (sq : Nat) : ℚ :=
  match d.pieceAt sq with
  | none => 0
  | some piece =>
    if d.isAttackedBy (!piece.color) sq && !(d.isAttackedBy piece.color sq) then
      PIECE_VALUES piece.ptype * (4/5)
    else 0

/-- Total hanging-piece penalty over the board. -/
def hangingTotal (d : BoardData) : ℚ :=
  (SQUARES.map (hangAt d)).sum

/-- The white-king open-file penalty magnitude (applied unsigned to both
perspectives by the source). -/
def whiteKingOpenPenalty (d : BoardData) : ℚ :=
  match d.kingSquare true with
  | some ks => if noOwnPawnOnFile d true (ks % 8) then 10 else 0
  | none => 0

/-- The black-king open-file penalty magnitude. -/
def blackKingOpenPenalty (d : BoardData) : ℚ :=
  match d.kingSquare false with
  | some ks => if noOwnPawnOnFile d false (ks % 8) then 10 else 0
  | none => 0

/-- Total unsigned king open-file penalty. -/
def kingOpenFilePenalty (d : BoardData) : ℚ :=
  whiteKingOpenPenalty d + blackKingOpenPenalty d

theorem sum_map_add_sum_map (l : List α) (f g h : α → ℚ)
    (hfg : ∀ x ∈ l, f x + g x = h x) :
    (l.map f).sum + (l.map g).sum = (l.map h).sum := by
  induction l with
  | nil => simp
  | cons a as ih =>
    have ha := hfg a (by simp)
    have ih1 := ih fun x hx => hfg x (by simp [hx])
    simp only [List.map_cons, List.sum_cons]
    linarith

theorem sum_map_cancel (l : List α) (f g : α → ℚ)
    (hfg : ∀ x ∈ l, f x + g x = 0) :
    (l.map f).sum + (l.map g).sum = 0 := by
  have := sum_map_add_sum_map l f g (fun _ => 0) hfg
  simpa using this

theorem squareTerm_add (d : BoardData) (sq : Nat) :
    squareTerm d true sq + squareTerm d false sq = -hangAt d sq := by
  unfold squareTerm hangAt
  cases hp : d.pieceAt sq with
  | none => simp
  | some piece =>
    obtain ⟨pt, pc⟩ := piece
    cases pc <;> simp only [Bool.not_true, Bool.not_false] <;>
      by_cases hA : (d.isAttackedBy true sq && !d.isAttackedBy false sq) = true <;>
      by_cases hB : (d.isAttackedBy false sq && !d.isAttackedBy true sq) = true <;>
      simp [hA, hB, Bool.and_not_self] <;> ring

theorem pieceLoopTerm_add (d : BoardData) :
    pieceLoopTerm d true + pieceLoopTerm d false = -hangingTotal d := by
  unfold pieceLoopTerm hangingTotal
  have h := sum_map_add_sum_map SQUARES (squareTerm d true) (squareTerm d false)
    (fun sq => -hangAt d sq) (fun sq _ => squareTerm_add d sq)
  rw [h]
  induction SQUARES with
  | nil => simp
  | cons a as ih => simp only [List.map_cons, List.sum_cons]; linarith

theorem bishopPairTerm_add (d : BoardData) :
    bishopPairTerm d true + bishopPairTerm d false = 0 := by
  unfold bishopPairTerm
  by_cases h1 : 2 ≤ bishopCount d true <;> by_cases h2 : 2 ≤ bishopCount d false <;>
    simp [h1, h2]

theorem whiteRookPairTerm_add (d : BoardData) (p : Nat × Nat) :
    whiteRookPairTerm d true p + whiteRookPairTerm d false p = 0 := by
  unfold whiteRookPairTerm
  split_ifs <;> simp_all

theorem blackRookPairTerm_add (d : BoardData) (p : Nat × Nat) :
    blackRookPairTerm d true p + blackRookPairTerm d false p = 0 := by
  unfold blackRookPairTerm
  split_ifs <;> simp_all

theorem rookConnectionTerm_add (d : BoardData) :
    rookConnectionTerm d true + rookConnectionTerm d false = 0 := by
  unfold rookConnectionTerm
  have hw := sum_map_cancel (allPairs (rookSquares d true))
    (whiteRookPairTerm d true) (whiteRookPairTerm d false)
    (fun p _ => whiteRookPairTerm_add d p)
  have hb := sum_map_cancel (allPairs (rookSquares d false))
    (blackRookPairTerm d true) (blackRookPairTerm d false)
    (fun p _ => blackRookPairTerm_add d p)
  linarith

theorem connectedTerm_add (d : BoardData) (fileIndex rankIndex : Nat) :
    connectedTerm d true fileIndex rankIndex + connectedTerm d false fileIndex rankIndex = 0 := by
  unfold connectedTerm
  cases hp : d.pieceAt (rankIndex * 8 + fileIndex) with
  | none => simp
  | some pawn =>
    obtain ⟨pt, pc⟩ := pawn
    cases pc <;> dsimp only [] <;> split_ifs <;> simp_all <;> ring

theorem pawnFileTerm_add (d : BoardData) (fileIndex : Nat) :
    pawnFileTerm d true fileIndex + pawnFileTerm d false fileIndex = 0 := by
  unfold pawnFileTerm
  have hc := sum_map_cancel (List.range 8)
    (connectedTerm d true fileIndex) (connectedTerm d false fileIndex)
    (fun r _ => connectedTerm_add d fileIndex r)
  by_cases h1 : 1 < pawnsInFile d true fileIndex <;>
    by_cases h2 : 1 < pawnsInFile d false fileIndex <;>
    by_cases h3 : isIsolated d true fileIndex = true <;>
    by_cases h4 : isIsolated d false fileIndex = true <;>
    simp [h1, h2, h3, h4] <;> linarith

theorem pawnStructureTerm_add (d : BoardData) :
    pawnStructureTerm d true + pawnStructureTerm d false = 0 := by
  unfold pawnStructureTerm
  exact sum_map_cancel (List.range 8) (pawnFileTerm d true) (pawnFileTerm d false)
    (fun f _ => pawnFileTerm_add d f)

theorem whiteKingBlock_add (d : BoardData) :
    whiteKingBlock d true + whiteKingBlock d false = -(2 * whiteKingOpenPenalty d) := by
  unfold whiteKingBlock whiteKingOpenPenalty
  cases hk : d.kingSquare true with
  | none => simp
  | some ks =>
    by_cases ho : noOwnPawnOnFile d true (ks % 8) = true <;>
      by_cases hc : d.isCheck = true <;> simp [ho, hc] <;> ring

theorem blackKingBlock_add (d : BoardData) :
    blackKingBlock d true + blackKingBlock d false = -(2 * blackKingOpenPenalty d) := by
  unfold blackKingBlock blackKingOpenPenalty
  cases hk : d.kingSquare false with
  | none => simp
  | some ks =>
    by_cases ho : noOwnPawnOnFile d false (ks % 8) = true <;>
      by_cases hc : d.isCheck = true <;> simp [ho, hc] <;> ring

theorem centerControlTerm_add (d : BoardData) :
    centerControlTerm d true + centerControlTerm d false = 0 := by
  unfold centerControlTerm
  refine sum_map_cancel centralSquares _ _ fun sq _ => ?_
  cases hp : d.pieceAt sq with
  | none => simp
  | some piece => obtain ⟨pt, pc⟩ := piece; cases pc <;> simp

theorem developedCount_eq_zero (d : BoardData) (c : Color) (squares : List Nat) :
    developedCount d c squares = 0 := by
  unfold developedCount
  induction squares with
  | nil => rfl
  | cons a as ih =>
    simp only [List.foldl_cons]
    convert ih using 2
    cases hp : d.pieceAt a with
    | none => rfl
    | some piece =>
      by_cases h : piece.color = c ∧ (piece.ptype = .knight ∨ piece.ptype = .bishop) <;>
        simp [h]

theorem developmentTerm_eq_zero (d : BoardData) (ai : Bool) :
    developmentTerm d ai = 0 := by
  unfold developmentTerm
  simp [developedCount_eq_zero]

theorem developmentTerm_add (d : BoardData) :
    developmentTerm d true + developmentTerm d false = 0 := by
  simp [developmentTerm_eq_zero]

theorem rookFileAt_add (d : BoardData) (fileIdx : Nat) :
    rookFileAt d true fileIdx + rookFileAt d false fileIdx = 0 := by
  unfold rookFileAt
  by_cases hw : fileHasRook d true fileIdx = true <;>
    by_cases hb : fileHasRook d false fileIdx = true <;>
    by_cases how : fileOpenFor d true fileIdx = true <;>
    by_cases hob : fileOpenFor d false fileIdx = true <;>
    simp [hw, hb, how, hob]

theorem rookFileTerm_add (d : BoardData) :
    rookFileTerm d true + rookFileTerm d false = 0 := by
  unfold rookFileTerm
  exact sum_map_cancel (List.range 8) (rookFileAt d true) (rookFileAt d false)
    (fun f _ => rookFileAt_add d f)

theorem passedPawnAt_add (d : BoardData) (sq : Nat) :
    passedPawnAt d true sq + passedPawnAt d false sq = 0 := by
  unfold passedPawnAt
  cases hp : d.pieceAt sq with
  | none => simp
  | some piece =>
    obtain ⟨pt, pc⟩ := piece
    cases pc <;> dsimp only [] <;> split_ifs <;> simp_all <;> ring

theorem passedPawnTerm_add (d : BoardData) :
    passedPawnTerm d true + passedPawnTerm d false = 0 := by
  unfold passedPawnTerm
  exact sum_map_cancel SQUARES (passedPawnAt d true) (passedPawnAt d false)
    (fun sq _ => passedPawnAt_add d sq)

theorem knightOutpostAt_add (d : BoardData) (sq : Nat) :
    knightOutpostAt d true sq + knightOutpostAt d false sq = 0 := by
  unfold knightOutpostAt
  cases hp : d.pieceAt sq with
  | none => simp
  | some piece =>
    obtain ⟨pt, pc⟩ := piece
    cases pc <;> dsimp only [] <;> split_ifs <;> simp_all

theorem knightOutpostTerm_add (d : BoardData) :
    knightOutpostTerm d true + knightOutpostTerm d false = 0 := by
  unfold knightOutpostTerm
  exact sum_map_cancel SQUARES (knightOutpostAt d true) (knightOutpostAt d false)
    (fun sq _ => knightOutpostAt_add d sq)

theorem evaluate_board_add (d : BoardData) :
    evaluate_board d true + evaluate_board d false =
      -(2 * kingOpenFilePenalty d) - hangingTotal d := by
  unfold evaluate_board kingSafetyTerm kingOpenFilePenalty
  have h1 := pieceLoopTerm_add d
  have h2 := bishopPairTerm_add d
  have h3 := rookConnectionTerm_add d
  have h4 := pawnStructureTerm_add d
  have h5 := whiteKingBlock_add d
  have h6 := blackKingBlock_add d
  have h7 := centerControlTerm_add d
  have h8 := developmentTerm_add d
  have h9 := rookFileTerm_add d
  have h10 := passedPawnTerm_add d
  have h11 := knightOutpostTerm_add d
  linarith

/-- C2 — corrected.  The claimed symmetry `evaluate(P, A) = -evaluate(P, B)`
fails on the code; what holds for every position is that the two
perspectives' scores sum to the (negated) perspective-independent
defects: the king open-file penalty, which is subtracted from *both*
perspectives' scores instead of being signed, and the hanging-piece
penalty, whose opponent branch is unreachable so it only ever charges
the perspective side. -/
theorem evaluate_perspective_sum (d : BoardData) (A B : Bool) (hAB : A ≠ B) :
    evaluate_board d A + evaluate_board d B =
      -(2 * kingOpenFilePenalty d) - hangingTotal d := by
  cases A <;> cases B <;> simp_all
  · rw [add_comm]; exact evaluate_board_add d
  · exact evaluate_board_add d

/-- Witness for `evaluate_perspective_sum` at the two-kings position. -/
theorem evaluate_perspective_sum_witness :
    (true : Bool) ≠ false ∧
      evaluate_board kingsOnlyData true + evaluate_board kingsOnlyData false =
        -(2 * kingOpenFilePenalty kingsOnlyData) - hangingTotal kingsOnlyData :=
  ⟨by decide, evaluate_perspective_sum kingsOnlyData true false (by decide)⟩

/-- C2 — counterexample to the claim as stated: on the two-kings position
`k7/8/8/8/8/8/8/K7 w - - 0 30` the evaluator returns `-20` from *both*
perspectives (each call subtracts the two kings' open-file penalties
unsigned), so swapping the perspective does not negate the result. -/
theorem evaluate_symmetry_counterexample :
    ¬(evaluate_board kingsOnlyData true = -evaluate_board kingsOnlyData false) := by
  decide

/-- C7 — the early-development term can never contribute: the counter's
`else` branch re-tests the condition the branch just refuted, so no
piece is ever counted as developed and the term is identically zero
(the claim's ±10 per developed knight/bishop never materializes). -/
theorem developmentTerm_always_zero (d : BoardData) (ai : Bool) :
    developmentTerm d ai = 0 :=
  developmentTerm_eq_zero d ai

/-- C4 — the transposition consultation returns a stored score exactly
when the entry is at least as deep as the current request and its bound
kind permits: EXACT always, LOWER_BOUND only with stored score ≥ beta,
UPPER_BOUND only with stored score ≤ alpha; in every other case it
yields `none` and `minimax` proceeds with the full search. -/
theorem ttProbe_characterization (tt : TT) (fen : String) (depth : Nat)
    (alpha beta s : XScore) :
    ttProbe tt fen depth alpha beta = some s ↔
      ∃ e, tt fen = some e ∧ depth ≤ e.depth ∧ s = e.score ∧
        (e.flag = TTFlag.EXACT ∨
         (e.flag = TTFlag.LOWERBOUND ∧ XScore.ble beta e.score = true) ∨
         (e.flag = TTFlag.UPPERBOUND ∧ XScore.ble e.score alpha = true)) := by
  unfold ttProbe
  cases h : tt fen with
  | none => simp
  | some e =>
    obtain ⟨ed, es, ef⟩ := e
    by_cases hd : ed < depth
    · have hnle : ¬depth ≤ ed := by omega
      cases ef <;> simp [hd, hnle]
    · have hle : depth ≤ ed := by omega
      cases ef <;>
        by_cases h1 : XScore.ble beta es = true <;>
        by_cases h2 : XScore.ble es alpha = true <;>
        simp [hd, hle, h1, h2] <;>
        exact eq_comm

/-- C6 — at any positive depth, a position the provider reports as
stalemate, insufficient material, fivefold repetition or a
seventy-five-move draw (and not checkmate), with no usable table entry,
is scored `0`, stored as an EXACT entry at the current depth, and
returned with the board untouched. -/
theorem minimax_draw_zero_exact (b : Board) (hist : List Board) (tt : TT)
    (fuel depth : Nat) (ai : Bool) (alpha beta : XScore)
    (hTT : tt b.data.fen = none)
    (hCM : b.data.isCheckmate = false)
    (hDraw : (b.data.isStalemate || b.data.isInsufficientMaterial ||
              b.data.isFivefoldRepetition || b.data.isSeventyfiveMoves) = true) :
    minimax (fuel + 1) tt (b, hist) (depth + 1) ai alpha beta =
      some (XScore.fin 0, (b, hist),
            ttStore tt b.data.fen ⟨depth + 1, XScore.fin 0, TTFlag.EXACT⟩) := by
  unfold minimax ttProbe
  simp [hTT, hCM, hDraw]

/-- Witness for `minimax_draw_zero_exact` at the stalemate position
`8/8/8/8/8/1K6/2Q5/k7 b - - 0 60`. -/
theorem minimax_draw_zero_exact_witness :
    emptyTT stalemateBoard.data.fen = none ∧
    stalemateBoard.data.isCheckmate = false ∧
    (stalemateBoard.data.isStalemate || stalemateBoard.data.isInsufficientMaterial ||
     stalemateBoard.data.isFivefoldRepetition || stalemateBoard.data.isSeventyfiveMoves) = true ∧
    minimax 3 emptyTT (stalemateBoard, []) 1 false XScore.negInf XScore.posInf =
      some (XScore.fin 0, (stalemateBoard, []),
            ttStore emptyTT stalemateBoard.data.fen ⟨1, XScore.fin 0, TTFlag.EXACT⟩) :=
  ⟨rfl, rfl, rfl,
   minimax_draw_zero_exact stalemateBoard [] emptyTT 2 0 false XScore.negInf XScore.posInf
     rfl rfl rfl⟩

theorem popS_pushS (st : SState) (m : Move) : popS (pushS st m) = st := rfl

theorem qLoop_state (recur : SState → Bool → XScore → XScore → Option (XScore × SState))
    (hrec : ∀ st ai alpha beta r, recur st ai alpha beta = some r → r.2 = st) :
    ∀ ms st ai alpha beta r, qLoop recur st ai alpha beta ms = some r → r.2 = st := by
  intro ms
  induction ms with
  | nil =>
    intro st ai alpha beta r h
    unfold qLoop at h
    cases h
    rfl
  | cons m ms ih =>
    intro st ai alpha beta r h
    unfold qLoop at h
    simp only [] at h
    cases hq : recur (pushS st m) (!ai) (XScore.neg beta) (XScore.neg alpha) with
    | none => rw [hq] at h; cases h
    | some p =>
      rw [hq] at h
      obtain ⟨s0, st2⟩ := p
      simp only [] at h
      have hst2 : st2 = pushS st m := hrec _ _ _ _ _ hq
      by_cases hb : XScore.ble beta (XScore.neg s0) = true
      · rw [if_pos hb] at h
        cases h
        simpa [hst2] using popS_pushS st m
      · rw [if_neg hb] at h
        have := ih _ _ _ _ _ h
        simpa [this, hst2] using popS_pushS st m

theorem quiescence_search_state :
    ∀ fuel st ai alpha beta r,
      quiescence_search fuel st ai alpha beta = some r → r.2 = st := by
  intro fuel
  induction fuel with
  | zero => intro st ai alpha beta r h; cases h
  | succ n ih =>
    intro st ai alpha beta r h
    unfold quiescence_search at h
    by_cases hb : XScore.ble beta (XScore.fin (evaluate_board st.1.data ai)) = true
    · rw [if_pos hb] at h
      cases h
      rfl
    · rw [if_neg hb] at h
      exact qLoop_state (quiescence_search n) ih _ _ _ _ _ _ h

theorem mmLoop_state
    (recur : TT → SState → Nat → Bool → XScore → XScore → Option (XScore × SState × TT))
    (hrec : ∀ tt st depth ai alpha beta r,
      recur tt st depth ai alpha beta = some r → r.2.1 = st) :
    ∀ ms tt st depth ai alpha beta best flag r,
      mmLoop recur tt st depth ai alpha beta best flag ms = some r → r.2.2.1 = st := by
  intro ms
  induction ms with
  | nil =>
    intro tt st depth ai alpha beta best flag r h
    unfold mmLoop at h
    cases h
    rfl
  | cons m ms ih =>
    intro tt st depth ai alpha beta best flag r h
    unfold mmLoop at h
    simp only [] at h
    cases hq : recur tt (pushS st m) (depth - 1) (!ai) (XScore.neg beta) (XScore.neg alpha) with
    | none => rw [hq] at h; cases h
    | some p =>
      rw [hq] at h
      obtain ⟨score, st2, tt2⟩ := p
      simp only [] at h
      have hst2 : st2 = pushS st m := hrec _ _ _ _ _ _ _ hq
      by_cases hai : ai = true
      · subst hai
        rw [if_pos rfl] at h
        by_cases hc : XScore.ble beta (XScore.max alpha score) = true
        · rw [if_pos hc] at h
          cases h
          simpa [hst2] using popS_pushS st m
        · rw [if_neg hc] at h
          have := ih _ _ _ _ _ _ _ _ _ h
          simpa [this, hst2] using popS_pushS st m
      · rw [if_neg hai] at h
        by_cases hc : XScore.ble (XScore.min beta score) alpha = true
        · rw [if_pos hc] at h
          cases h
          simpa [hst2] using popS_pushS st m
        · rw [if_neg hc] at h
          have := ih _ _ _ _ _ _ _ _ _ h
          simpa [this, hst2] using popS_pushS st m

theorem minimax_state :
    ∀ fuel tt st depth ai alpha beta r,
      minimax fuel tt st depth ai alpha beta = some r → r.2.1 = st := by
  intro fuel
  induction fuel with
  | zero => intro tt st depth ai alpha beta r h; cases h
  | succ n ih =>
    intro tt st depth ai alpha beta r h
    unfold minimax at h
    simp only [] at h
    cases hp : ttProbe tt st.1.data.fen depth alpha beta with
    | some storedScore => rw [hp] at h; cases h; rfl
    | none =>
      rw [hp] at h
      by_cases hd : depth = 0
      · rw [if_pos hd] at h
        cases hq : quiescence_search n st ai alpha beta with
        | none => rw [hq] at h; cases h
        | some p =>
          rw [hq] at h
          cases h
          exact quiescence_search_state n st ai alpha beta p hq
      · rw [if_neg hd] at h
        by_cases hcm : st.1.data.isCheckmate = true
        · rw [if_pos hcm] at h; cases h; rfl
        · rw [if_neg hcm] at h
          by_cases hdr : (st.1.data.isStalemate || st.1.data.isInsufficientMaterial ||
              st.1.data.isFivefoldRepetition || st.1.data.isSeventyfiveMoves) = true
          · rw [if_pos hdr] at h; cases h; rfl
          · rw [if_neg hdr] at h
            cases hl : mmLoop (minimax n) tt st depth ai alpha beta
                (if ai = true then XScore.negInf else XScore.posInf)
                (if ai = true then TTFlag.LOWERBOUND else TTFlag.UPPERBOUND)
                (sortByKeyDesc
                  (fun m => calculate_mvl_lva st.1.data m +
                    (if st.1.data.givesCheck m = true then 100 else 0))
                  (st.1.data.legalMovesOf st.1.data.turn)) with
            | none => rw [hl] at h; cases h
            | some p =>
              rw [hl] at h
              obtain ⟨best, flag, st1, tt1⟩ := p
              cases h
              exact mmLoop_state (minimax n) ih _ _ _ _ _ _ _ _ _ _ hl

/-- C9 — apply-then-recurse-then-undo: every completing call of the
quiescence search and of the main search returns the mutable board (and
its undo stack) exactly as it received it — each pushed move is popped
before the next root-level step looks at the board. -/
theorem search_restores_state :
    (∀ fuel st ai alpha beta r,
       quiescence_search fuel st ai alpha beta = some r → r.2 = st) ∧
    (∀ fuel tt st depth ai alpha beta r,
       minimax fuel tt st depth ai alpha beta = some r → r.2.1 = st) :=
  ⟨quiescence_search_state, minimax_state⟩

/-- A table holding an EXACT depth-5 entry for the stalemate position's
FEN, used to exercise the probe-hit path. -/
def probeHitTT : TT :=
  ttStore emptyTT "8/8/8/8/8/1K6/2Q5/k7 b - - 0 60" ⟨5, XScore.fin 7, TTFlag.EXACT⟩

/-- Witness for `search_restores_state`: a completed quiescence call on
the two-kings position and a completed (table-hit) search call, each
returning its entry state. -/
theorem search_restores_state_witness :
    (quiescence_search 2 (Board.stub kingsOnlyData, []) true XScore.negInf (XScore.fin 0) =
        some (XScore.fin (-20), (Board.stub kingsOnlyData, [])) ∧
      ((XScore.fin (-20), ((Board.stub kingsOnlyData, []) : SState)).2 =
        (Board.stub kingsOnlyData, []))) ∧
    (minimax 1 probeHitTT (stalemateBoard, []) 3 true XScore.negInf XScore.posInf =
        some (XScore.fin 7, (stalemateBoard, []), probeHitTT) ∧
      ((XScore.fin 7, ((stalemateBoard, []) : SState), probeHitTT).2.1 =
        (stalemateBoard, []))) :=
  ⟨⟨rfl, search_restores_state.1 2 (Board.stub kingsOnlyData, []) true XScore.negInf
      (XScore.fin 0) (XScore.fin (-20), (Board.stub kingsOnlyData, [])) rfl⟩,
   ⟨rfl, search_restores_state.2 1 probeHitTT (stalemateBoard, []) 3 true XScore.negInf
      XScore.posInf (XScore.fin 7, (stalemateBoard, []), probeHitTT) rfl⟩⟩

/-- C1 — the checkmate branch's sign is inverted relative to the claim:
on `8/8/8/8/8/1k6/1q6/K7 w - - 0 50` (white — the side to move and the
searching perspective — is checkmated) the search returns `+1000000`
(stored EXACT), where the claim requires `-1000000` when the checkmated
side to move equals the perspective color. -/
theorem minimax_checkmate_sign_run :
    resultScore (minimax 5 emptyTT (matedBoard, []) 1 true XScore.negInf XScore.posInf) =
      some (XScore.fin 1000000) ∧
    resultTTAt (minimax 5 emptyTT (matedBoard, []) 1 true XScore.negInf XScore.posInf)
      "8/8/8/8/8/1k6/1q6/K7 w - - 0 50" = some ⟨1, XScore.fin 1000000, TTFlag.EXACT⟩ ∧
    XScore.fin 1000000 ≠ XScore.fin (-1000000) := by
  refine ⟨by decide, by decide, by decide⟩

/-- C3 — a node searched with the full window, no cutoff, and every
legal move explored still stores a LOWER_BOUND (white-perspective) entry,
not EXACT: on `8/8/8/8/8/7P/5k1P/7K w - - 0 40` (one legal move, h3-h4,
fully explored; beta stays `+inf` so no cutoff can occur) the stored
entry is `(1, -322, LOWER_BOUND)`. -/
theorem minimax_store_flag_run :
    resultTTAt (minimax 10 emptyTT (pawnBoxBoard, []) 1 true XScore.negInf XScore.posInf)
      "8/8/8/8/8/7P/5k1P/7K w - - 0 40" =
        some ⟨1, XScore.fin (-322), TTFlag.LOWERBOUND⟩ ∧
    TTFlag.LOWERBOUND ≠ TTFlag.EXACT := by
  refine ⟨by decide, by decide⟩

/-- C5 — the full-window alpha-beta search does not agree with the
unpruned full-width negamax: on `8/8/8/8/8/7P/5k1P/7K w - - 0 40` at
depth 1 the search returns the child's own-perspective evaluation `-322`
(it never negates the recursive score), while the spec's negamax returns
`+322`. -/
theorem minimax_negamax_mismatch :
    resultScore (minimax 10 emptyTT (pawnBoxBoard, []) 1 true XScore.negInf XScore.posInf) =
      some (XScore.fin (-322)) ∧
    negamaxFull 10 pawnBoxBoard 1 true = some (XScore.fin 322) ∧
    resultScore (minimax 10 emptyTT (pawnBoxBoard, []) 1 true XScore.negInf XScore.posInf) ≠
      negamaxFull 10 pawnBoxBoard 1 true := by
  refine ⟨by decide, by decide, by decide⟩

/-- C10 — the endpoint's response does not depend on the inherited global
transposition table: the table is cleared at the start of each request,
so any two runs of the same request (whatever table state earlier
requests left behind) produce the same response — the search itself is a
pure function of the request. -/
theorem get_ai_move_tt_independent
    (parse : String → Except String Board) (fuel : Nat) (req : AIRequest)
    (tt0 tt1 : TT) :
    get_ai_move parse fuel tt0 req = get_ai_move parse fuel tt1 req := rfl

/-- C8 — the endpoint's failure handling: a request with a missing (or
empty, Python falsiness) field, a position that is already over, a
side-to-move that does not match the requested engine color, and any
error raised inside the `try:` body (invalid FEN, recursion exhaustion,
the promotion-serialization failure) all produce a structured response
with `success = false`, an explanatory message and no move — the handler
itself is total, never letting the exception escape. -/
theorem get_ai_move_error_contract (parse : String → Except String Board) (fuel : Nat)
    (tt0 : TT) :
    (∀ req : AIRequest,
       (req.board_fen.getD "" = "" ∨ req.ai_color.getD "" = "" ∨
        req.difficulty.getD "" = "") →
       (get_ai_move parse fuel tt0 req).success = false ∧
       (get_ai_move parse fuel tt0 req).move = none) ∧
    (∀ fen cS dS b, fen ≠ "" → cS ≠ "" → dS ≠ "" → parse fen = Except.ok b →
       b.data.isGameOver = true →
       get_ai_move parse fuel tt0 ⟨some fen, some cS, some dS⟩ =
         ⟨false, none, "Game is already over (checkmate, stalemate, or draw)", 200⟩) ∧
    (∀ fen cS dS b, fen ≠ "" → cS ≠ "" → dS ≠ "" → parse fen = Except.ok b →
       b.data.isGameOver = false → b.data.turn ≠ (cS.toLower == "white") →
       get_ai_move parse fuel tt0 ⟨some fen, some cS, some dS⟩ =
         ⟨false, none, "Not AI's turn to move.", 200⟩) ∧
    (∀ fen cS dS e, fen ≠ "" → cS ≠ "" → dS ≠ "" →
       tryBody parse fuel tt0 fen cS dS = Except.error e →
       get_ai_move parse fuel tt0 ⟨some fen, some cS, some dS⟩ =
         ⟨false, none, e, 500⟩) := by
  refine ⟨?_, ?_, ?_, ?_⟩
  · intro req h
    unfold get_ai_move
    simp only []
    rw [if_pos h]
    exact ⟨rfl, rfl⟩
  · intro fen cS dS b hf hc hd hparse hgo
    unfold get_ai_move tryBody
    simp [hf, hc, hd, hparse, hgo]
  · intro fen cS dS b hf hc hd hparse hgo hturn
    unfold get_ai_move tryBody
    simp [hf, hc, hd, hparse, hgo, hturn]
  · intro fen cS dS e hf hc hd htb
    unfold get_ai_move
    simp [hf, hc, hd, htb]

/-- A FEN-construction oracle for the endpoint witnesses: it recognizes
the two modelled positions and raises on everything else. -/
def parseStub : String → Except String Board := fun s =>
  if s = "8/8/8/8/8/1k6/1q6/K7 w - - 0 50" then .ok matedBoard
  else if s = "8/8/8/8/8/7P/5k1P/7K w - - 0 40" then .ok pawnBoxBoard
  else .error "invalid fen"

/-- Witness for `get_ai_move_error_contract`: a missing-field request, a
game-over request, a wrong-turn request and an invalid-FEN request, each
answered with the structured failure. -/
theorem get_ai_move_error_contract_witness :
    ((get_ai_move parseStub 5 emptyTT ⟨none, some "white", some "easy"⟩).success = false ∧
     (get_ai_move parseStub 5 emptyTT ⟨none, some "white", some "easy"⟩).move = none) ∧
    get_ai_move parseStub 5 emptyTT
        ⟨some "8/8/8/8/8/1k6/1q6/K7 w - - 0 50", some "black", some "easy"⟩ =
      ⟨false, none, "Game is already over (checkmate, stalemate, or draw)", 200⟩ ∧
    get_ai_move parseStub 5 emptyTT
        ⟨some "8/8/8/8/8/7P/5k1P/7K w - - 0 40", some "black", some "easy"⟩ =
      ⟨false, none, "Not AI's turn to move.", 200⟩ ∧
    get_ai_move parseStub 5 emptyTT ⟨some "zz", some "white", some "easy"⟩ =
      ⟨false, none, "invalid fen", 500⟩ :=
  ⟨(get_ai_move_error_contract parseStub 5 emptyTT).1
      ⟨none, some "white", some "easy"⟩ (Or.inl rfl),
   (get_ai_move_error_contract parseStub 5 emptyTT).2.1
      "8/8/8/8/8/1k6/1q6/K7 w - - 0 50" "black" "easy" matedBoard
      (by decide) (by decide) (by decide) rfl rfl,
   (get_ai_move_error_contract parseStub 5 emptyTT).2.2.1
      "8/8/8/8/8/7P/5k1P/7K w - - 0 40" "black" "easy" pawnBoxBoard
      (by decide) (by decide) (by decide) rfl rfl (by with_unfolding_all decide),
   (get_ai_move_error_contract parseStub 5 emptyTT).2.2.2
      "zz" "white" "easy" "invalid fen" (by decide) (by decide) (by decide) rfl⟩
